import Mathlib

/-!
Verification of the piscine resource-pool library.

Each namespace shallowly embeds one source module (or one historical
variant of it):

* `LoopMod`   — `src/mods/loop/loop.ts` (`loopOrThrow`, `tryLoop`):
  bounded retry with exponential backoff and the `Cancel`/`Retry`/`Skip`
  failure classification.
* `PoolLoop`  — `src/mods/pool/loop.ts` (second variant, `tryLoop` with an
  external abort signal): the same loop with a logical clock, so that the
  duration of backoff sleeps and the position of signal checks are
  observable.

Machine integers do not occur; all arithmetic is on `Nat`.  Asynchronous
code is embedded by explicit state passing: a looper is a function from
the attempt index to its classified outcome, and a run records the
attempt count and the backoff sleeps that were performed.
-/

namespace LoopMod

/-- Classification of one failed loop attempt (`Looped` in loop.ts:
`Cancel`, `Retry` or `Skip`, each wrapping an inner error). -/
inductive Looped (ε : Type) where
  | cancel (inner : ε)
  | retry (inner : ε)
  | skip (inner : ε)
deriving Repr, DecidableEq

/-- Final outcome of `tryLoop` / `loopOrThrow`: success, the inner error of
a `Cancel` (respectively a rethrown non-`Skip`/`Retry` error for
`loopOrThrow`), or `TooManyRetriesError` carrying the accumulated attempt
errors. -/
inductive LoopResult (α ε : Type) where
  | ok (value : α)
  | cancelled (inner : ε)
  | tooManyRetries (errors : List (Looped ε))
deriving Repr, DecidableEq

/-- Observable record of one loop run: the result, how many times the
looper was invoked, and the backoff sleep durations in order. -/
structure LoopRun (α ε : Type) where
  result : LoopResult α ε
  attempts : Nat
  sleeps : List Nat
deriving Repr, DecidableEq

/-- Loop body of `tryLoop` (loop.ts lines 215-235), by recursion on the
remaining attempt budget.  `i` is the current attempt index, `errors` the
accumulated `Skip`/`Retry` failures, `attempts` and `sleeps` the
observables so far.  A `Retry` at attempt `i` sleeps `init * base ^ i`. -/
def tryLoopGo (looper : Nat → Except (Looped ε) α) (init base : Nat) :
    Nat → Nat → List (Looped ε) → Nat → List Nat → LoopRun α ε
  | _, 0, errors, attempts, sleeps =>
    ⟨.tooManyRetries errors, attempts, sleeps⟩
  | i, fuel + 1, errors, attempts, sleeps =>
    match looper i with
    | .ok v => ⟨.ok v, attempts + 1, sleeps⟩
    | .error (.skip e) =>
      tryLoopGo looper init base (i + 1) fuel (errors ++ [.skip e]) (attempts + 1) sleeps
    | .error (.retry e) =>
      tryLoopGo looper init base (i + 1) fuel (errors ++ [.retry e]) (attempts + 1)
        (sleeps ++ [init * base ^ i])
    | .error (.cancel e) => ⟨.cancelled e, attempts + 1, sleeps⟩

/-- `tryLoop(looper, { init, base, max })` from loop.ts lines 207-238.
The upstream defaults are `init = 1000`, `base = 2`, `max = 3`. -/
def tryLoop (looper : Nat → Except (Looped ε) α) (init base max : Nat) : LoopRun α ε :=
  tryLoopGo looper init base 0 max [] 0 []

/-- Loop body of `loopOrThrow` (loop.ts lines 185-202).  A thrown `Skip`
continues immediately, a thrown `Retry` sleeps `init * base ^ i` and
continues, any other thrown error (embedded as `.cancel`) is rethrown
as-is; an exhausted budget throws `TooManyRetriesError.from(errors)`. -/
def loopOrThrowGo (looper : Nat → Except (Looped ε) α) (init base : Nat) :
    Nat → Nat → List (Looped ε) → Nat → List Nat → LoopRun α ε
  | _, 0, errors, attempts, sleeps =>
    ⟨.tooManyRetries errors, attempts, sleeps⟩
  | i, fuel + 1, errors, attempts, sleeps =>
    match looper i with
    | .ok v => ⟨.ok v, attempts + 1, sleeps⟩
    | .error (.skip e) =>
      loopOrThrowGo looper init base (i + 1) fuel (errors ++ [.skip e]) (attempts + 1) sleeps
    | .error (.retry e) =>
      loopOrThrowGo looper init base (i + 1) fuel (errors ++ [.retry e]) (attempts + 1)
        (sleeps ++ [init * base ^ i])
    | .error (.cancel e) => ⟨.cancelled e, attempts + 1, sleeps⟩

/-- `loopOrThrow(looper, { init, base, max })` from loop.ts lines 177-205. -/
def loopOrThrow (looper : Nat → Except (Looped ε) α) (init base max : Nat) : LoopRun α ε :=
  loopOrThrowGo looper init base 0 max [] 0 []

/-- The looper of the retry-accounting scenario: `Retry` on attempts
`0` and `1`, success with `v` from attempt `2` on. -/
def retryTwiceLooper (v : α) (e0 e1 : ε) : Nat → Except (Looped ε) α :=
  fun i => if i = 0 then .error (.retry e0) else if i = 1 then .error (.retry e1) else .ok v

/-- A looper that fails with `Retry` on every attempt. -/
def alwaysRetryLooper (α : Type) (e : Nat → ε) : Nat → Except (Looped ε) α :=
  fun i => .error (.retry (e i))

/-- A looper that fails with `Cancel e` on every attempt. -/
def alwaysCancelLooper (α : Type) (e : ε) : Nat → Except (Looped ε) α :=
  fun _ => .error (.cancel e)

end LoopMod

namespace PoolLoop

/-- Outcome of the signal-aware `tryLoop` of pool/loop.ts (second variant,
lines 192-226): success, the inner error of a `Cancel`, `AbortedError`
from the external signal, or `TooManyRetriesError`. -/
inductive TimedResult (α ε : Type) where
  | ok (value : α)
  | cancelled (inner : ε)
  | aborted
  | tooManyRetries
deriving Repr, DecidableEq

/-- Observable record of one timed run: result, number of looper
invocations, and the elapsed logical time.  Each looper invocation takes
one tick; a backoff sleep takes its full duration in ticks. -/
structure TimedRun (α ε : Type) where
  result : TimedResult α ε
  attempts : Nat
  elapsed : Nat
deriving Repr, DecidableEq

/-- Loop body of pool/loop.ts `tryLoop` lines 200-221 under a logical
clock `t`.  The external signal is aborted at time `t` iff
`abortTime ≤ t`; the code checks it only in the `for` condition
(`!signal?.aborted && i < max`), so the check happens once per iteration
before the looper call, and once after the loop exits.  The sleep after a
`Retry` is a plain `setTimeout` and always advances the clock by the full
`init * base ^ i`, whether or not the signal aborts meanwhile. -/
def tryLoopTGo (looper : Nat → Except (LoopMod.Looped ε) α) (init base abortTime : Nat) :
    Nat → Nat → Nat → Nat → TimedRun α ε
  | _, 0, attempts, t =>
    if abortTime ≤ t then ⟨.aborted, attempts, t⟩ else ⟨.tooManyRetries, attempts, t⟩
  | i, fuel + 1, attempts, t =>
    if abortTime ≤ t then ⟨.aborted, attempts, t⟩
    else
      match looper i with
      | .ok v => ⟨.ok v, attempts + 1, t + 1⟩
      | .error (.skip _) => tryLoopTGo looper init base abortTime (i + 1) fuel (attempts + 1) (t + 1)
      | .error (.retry _) =>
        tryLoopTGo looper init base abortTime (i + 1) fuel (attempts + 1)
          (t + 1 + init * base ^ i)
      | .error (.cancel e) => ⟨.cancelled e, attempts + 1, t + 1⟩

/-- `tryLoop(looper, { init, base, max, signal })` from pool/loop.ts
lines 192-226, started at time `0`. -/
def tryLoopT (looper : Nat → Except (LoopMod.Looped ε) α) (init base max abortTime : Nat) :
    TimedRun α ε :=
  tryLoopTGo looper init base abortTime 0 max 0 0

end PoolLoop

namespace IndexPool

/-!
Embedding of `src/mods/pool/index.ts` (second variant, lines 419-898):
`PoolItem`, `Pool`, `StartPool`.

The item wrapper extends `Box` from the external `@hazae41/box` package,
which is not part of this repository's sources; its ownership states are
modelled from the spec (§4.1): an item is `Owned`, `Borrowed`, `Moved` or
`Disposed`; `move`/`unwrap` require ownership and transfer the inner
value out; disposal is idempotent and is a no-op on a moved wrapper's
inner value.
-/

/-- Modelled from the spec: the ownership state of a `@hazae41/box` `Box`
(the package is external to this repository).  Spec §3/§4.1: state
`Owned | Moved | Disposed`, plus the transient `Borrowed` checkout. -/
inductive BoxMode where
  | owned
  | borrowed
  | moved
  | disposed
deriving Repr, DecidableEq

/-- A `PoolItem` as stored in an `Ok` entry: its slot index, inner value,
and the ownership state of its underlying `Box`. -/
structure Item (α : Type) where
  index : Nat
  value : α
  mode : BoxMode
deriving Repr, DecidableEq

/-- One pool entry: `Ok(PoolItem)` or `Err(error)` (the error payload is
irrelevant to the verified properties). -/
inductive Entry (α : Type) where
  | ok (it : Item α)
  | err
deriving Repr, DecidableEq

/-- Events emitted by the pool (`PoolEvents` in index.ts lines 495-498):
`ready(index)` and `error(index)`. -/
inductive PEv where
  | ready (index : Nat)
  | error (index : Nat)
deriving Repr, DecidableEq

/-- State of a `StartPool`: the sparse `#entries` array (a JS array with
holes, embedded as a list of options), the sparse `#aborters` array
(`some aborted?` when an aborter exists at the index), and the emitted
event log. -/
structure PoolSt (α : Type) where
  entries : List (Option (Entry α))
  aborters : List (Option Bool)
  events : List PEv
deriving Repr, DecidableEq

/-- Read a sparse JS array at an index (`array.at(i)`, `undefined` for
holes and out-of-range reads). -/
def sparseGet (l : List (Option β)) (i : Nat) : Option β :=
  (l.getD i none)

/-- Write a sparse JS array at an index (`array[i] = v`), extending it
with holes when the index is past the end. -/
def sparsePut (l : List (Option β)) (i : Nat) (v : Option β) : List (Option β) :=
  (l ++ List.replicate (i + 1 - l.length) none).set i v

/-- `Pool.delete(index)` (index.ts lines 551-564), state effect only: read
the previous entry, clear the slot, and (when the previous entry was
`Ok`) dispose its item.  Disposal accounting is verified separately on
the single-slot model below. -/
def poolDelete (s : PoolSt α) (i : Nat) : PoolSt α :=
  { s with entries := s.entries.set i none }

/-- `Pool.set(index, result)` (index.ts lines 572-598): delete the
previous entry, store the new one, and emit `ready` on `Ok` or `error`
on `Err`.  A fresh `Ok` item starts out owned. -/
def poolSet (s : PoolSt α) (i : Nat) (result : Except Unit α) : PoolSt α :=
  match result with
  | .ok v =>
    let s1 := poolDelete s i
    { s1 with
      entries := sparsePut s1.entries i (some (.ok ⟨i, v, .owned⟩))
      events := s1.events ++ [.ready i] }
  | .error _ =>
    let s1 := poolDelete s i
    { s1 with
      entries := sparsePut s1.entries i (some .err)
      events := s1.events ++ [.error i] }

/-- `Pool.update(index)` (index.ts lines 600-609): emit `ready` iff the
slot holds an `Ok` entry. -/
def poolUpdate (s : PoolSt α) (i : Nat) : PoolSt α :=
  match sparseGet s.entries i with
  | some (.ok _) => { s with events := s.events ++ [.ready i] }
  | _ => s

/-- `PoolItem.returnOrThrow` (index.ts lines 484-492) for the item stored
at slot `i`: the base-class return (modelled from the spec: a borrowed
box becomes owned again) followed by `pool.update(index)`; throws
(`.error`) when the item is not currently borrowed. -/
def returnOrThrow (s : PoolSt α) (i : Nat) : Except Unit (PoolSt α) :=
  match sparseGet s.entries i with
  | some (.ok it) =>
    if it.mode = .borrowed then
      let s1 := { s with entries := s.entries.set i (some (.ok { it with mode := .owned })) }
      .ok (poolUpdate s1 i)
    else .error ()
  | _ => .error ()

/-- The filter of `getRandomOrThrow`/`getCryptoRandomOrThrow` (index.ts
lines 669 and 682): the entries that are non-null, `Ok`, and whose item
is currently `owned`. -/
def okOwnedEntries (s : PoolSt α) : List (Item α) :=
  s.entries.filterMap fun o =>
    match o with
    | some (.ok it) => if it.mode = .owned then some it else none
    | _ => none

/-- `Pool.getRandomOrThrow` (index.ts lines 668-675): pick uniformly from
the owned `Ok` entries via Math's PRNG (abstracted as the draw `src`,
reduced modulo the candidate count), or throw `EmptyPoolError`. -/
def getRandomOrThrow (s : PoolSt α) (src : Nat) : Except Unit (Item α) :=
  let cands := okOwnedEntries s
  match cands.get? (src % cands.length) with
  | some it => .ok it
  | none => .error ()

/-- `Pool.getCryptoRandomOrThrow` (index.ts lines 681-688): same filter
and selection, via WebCrypto's CSPRNG (abstracted as the draw `src`). -/
def getCryptoRandomOrThrow (s : PoolSt α) (src : Nat) : Except Unit (Item α) :=
  let cands := okOwnedEntries s
  match cands.get? (src % cands.length) with
  | some it => .ok it
  | none => .error ()

/-- Result of the resumed `StartPool.#create` continuation: the new pool
state, and whether the freshly produced resource's value disposer and
wrapper clean action ran (via the `Stack` that holds them until the
commit point defuses it). -/
structure CreateOut (α : Type) where
  st : PoolSt α
  valueCleaned : Bool
  entryCleaned : Bool
deriving Repr, DecidableEq

/-- `StartPool.#create` (index.ts lines 826-851), resumed after the
constructor settled with `res`, with `aborted` the state of this
construction's own cancellation token at that moment.  On a successful
result with an aborted token the pushed `Stack` disposes both the
disposer and its inner value and the method returns without touching the
pool; otherwise the aborter is removed, the stack is defused, and the
result is committed via `set`. -/
def createResume (s : PoolSt α) (i : Nat) (aborted : Bool) (res : Except Unit α) :
    CreateOut α :=
  match res with
  | .ok v =>
    if aborted then ⟨s, true, true⟩
    else
      let s1 := { s with aborters := s.aborters.set i none }
      ⟨poolSet s1 i (.ok v), false, false⟩
  | .error e =>
    if aborted then ⟨s, false, false⟩
    else
      let s1 := { s with aborters := s.aborters.set i none }
      ⟨poolSet s1 i (.error e), false, false⟩

end IndexPool

namespace StartTokens

/-!
Token bookkeeping of `StartPool.start`/`StartPool.abort` (index.ts lines
858-880), projected onto one index.  `tokens` lists the cancellation
tokens of the constructions started so far at this index, in start
order, each with its aborted flag; `current` is the `#aborters[index]`
cell.  A construction is *live* iff its token is unaborted: `#create`
checks `signal.aborted` before committing, so an aborted construction
can never commit a transition.
-/

/-- Per-index aborter bookkeeping of a `StartPool`. -/
structure St where
  tokens : List Bool
  current : Option Nat
deriving Repr, DecidableEq

/-- No construction started yet. -/
def init : St := ⟨[], none⟩

/-- `StartPool.abort(index)` (index.ts lines 873-880): abort the current
aborter if any, then clear the cell. -/
def abortIdx (s : St) : St :=
  match s.current with
  | none => { s with current := none }
  | some k => { tokens := s.tokens.set k true, current := none }

/-- `StartPool.start(index, creator)` (index.ts lines 858-866): abort the
previous aborter first, then install a fresh aborter and launch exactly
one new construction bound to its signal. -/
def startIdx (s : St) : St :=
  let s1 := abortIdx s
  { tokens := s1.tokens ++ [false], current := some s1.tokens.length }

/-- `n` successive `start` calls on the same index. -/
def startN : Nat → St
  | 0 => init
  | n + 1 => startIdx (startN n)

/-- Number of live (unaborted) constructions. -/
def liveCount (s : St) : Nat :=
  s.tokens.count false

end StartTokens

namespace ItemLife

/-!
Exactly-once-disposal model: one `PoolItem` (index.ts lines 431-493) held
by one slot of its `Pool` (index.ts lines 520-609), with the cleanup
actions counted.  The item's `clean : Deferred` and the `Box` base class
come from the external `@hazae41/box` package and are modelled from the
spec: the cleanup action supplied alongside a constructed value is a
zero-argument idempotent disposer, so a `Deferred` runs its action only
the first time it is disposed, and disposing a `Box` disposes the inner
value only while the box still owns it.
-/

/-- Observable state of one pool item and its slot: the box mode, whether
the wrapper's `Deferred` already ran, how many times the wrapper clean
action and the inner value's disposer actually ran, and whether the
entry is still present in the pool slot. -/
structure St where
  mode : IndexPool.BoxMode
  cleanDone : Bool
  wrapClean : Nat
  valueClean : Nat
  inPool : Bool
deriving Repr, DecidableEq

/-- A freshly committed item: owned, in the pool, nothing cleaned. -/
def start : St := ⟨.owned, false, 0, 0, true⟩

/-- `PoolItem[Symbol.dispose]` (index.ts lines 442-446): dispose the
`clean` deferred (runs the wrapper clean action at most once), then the
`Box` base disposal (modelled from the spec: disposes the inner value
iff the box still owns it, then marks the box disposed). -/
def itemDispose (s : St) : St :=
  let s1 :=
    if s.cleanDone then s
    else { s with cleanDone := true, wrapClean := s.wrapClean + 1 }
  if s1.mode = .owned then
    { s1 with mode := .disposed, valueClean := s1.valueClean + 1 }
  else
    { s1 with mode := .disposed }

/-- `Pool.delete(index)` (index.ts lines 551-564) on this slot: clear the
slot; when it held this `Ok` entry, dispose the item (`using _ =
previous.get()`). -/
def slotDelete (s : St) : St :=
  if s.inPool then { (itemDispose s) with inPool := false } else s

/-- `Pool[Symbol.dispose]` (index.ts lines 534-544) restricted to this
slot: dispose every `Ok` entry still present, then drop all entries. -/
def teardown (s : St) : St :=
  if s.inPool then { (itemDispose s) with inPool := false } else s

/-- `PoolItem.moveOrThrow` (index.ts lines 458-464): the base-class move
(modelled from the spec: requires ownership, transfers the inner value
out, marks the wrapper moved) followed by `pool.delete(index)`.  `none`
means the move threw and nothing happened. -/
def moveOrThrow (s : St) : Option St :=
  if s.mode = .owned then
    some (slotDelete { s with mode := .moved })
  else none

/-- `PoolItem.unwrapOrThrow` (index.ts lines 476-482): identical ownership
transfer (spec §4.1: `unwrap` is the same transfer as `move`), followed
by `pool.delete(index)`. -/
def unwrapOrThrow (s : St) : Option St :=
  if s.mode = .owned then
    some (slotDelete { s with mode := .moved })
  else none

/-- The operations of the exactly-once-disposal claim. -/
inductive Op where
  | move
  | unwrap
  | del
  | teardown
deriving Repr, DecidableEq

/-- Apply one operation; a throwing `move`/`unwrap` leaves the state
unchanged. -/
def step (s : St) : Op → St
  | .move => (moveOrThrow s).getD s
  | .unwrap => (unwrapOrThrow s).getD s
  | .del => slotDelete s
  | .teardown => teardown s

/-- Apply a whole sequence of operations. -/
def run (s : St) (ops : List Op) : St :=
  ops.foldl step s

end ItemLife

namespace WaitV2

/-!
`Pool.getOrWaitOrThrow` of index.ts lines 696-709 (second variant): loop
forever — if the slot holds an `Ok` entry, return its value; otherwise
await one `ready` notification for this index (via `Plume.waitOrThrow`
filtered on the index, abortable by the caller's signal) and re-check.

The surrounding concurrency is embedded as a script of steps the waiter
observes while suspended: an abort of the caller's signal, or a `ready`
notification carrying the index it is for and the entries array at the
moment the waiter wakes.
-/

/-- One step observed while waiting. -/
inductive Step (α : Type) where
  | abort
  | notify (index : Nat) (entries : List (Option (IndexPool.Entry α)))
deriving Repr, DecidableEq

/-- Outcome of the wait: the returned value, `AbortedError`, or still
suspended when the script ends. -/
inductive Outcome (α : Type) where
  | got (value : α)
  | aborted
  | waiting
deriving Repr, DecidableEq

/-- The check at the top of each loop iteration of index.ts lines
698-701: return the slot's value when the slot holds an `Ok` entry.
Note the check is `entry != null && entry.isOk()` — the item's `owned`
flag is not consulted. -/
def check (idx : Nat) (ents : List (Option (IndexPool.Entry α))) : Option α :=
  match IndexPool.sparseGet ents idx with
  | some (.ok it) => some it.value
  | _ => none

/-- The wait loop of index.ts lines 697-708: each iteration checks the
slot first, and when it is not `Ok` awaits one step — the caller's
signal aborting, or a `ready` notification (one for another index does
not wake the waiter, since the `Plume` handler filters on the index) —
and loops. -/
def getOrWaitOrThrow (idx : Nat) (ents : List (Option (IndexPool.Entry α))) :
    List (Step α) → Outcome α
  | [] =>
    match check idx ents with
    | some v => .got v
    | none => .waiting
  | .abort :: _ =>
    match check idx ents with
    | some v => .got v
    | none => .aborted
  | .notify i ents1 :: rest =>
    match check idx ents with
    | some v => .got v
    | none => getOrWaitOrThrow idx (if i = idx then ents1 else ents) rest

end WaitV2

namespace WaitV1

/-!
`Pool.getOrWaitOrThrow` of index.ts lines 344-355 (first variant): if the
slot holds an `Ok` entry whose item is `owned`, return it immediately;
otherwise await the first `ok` event for this index and resolve with the
entry carried by that event (no re-check loop).
-/

/-- One step observed while waiting: an abort, or an `ok` event carrying
the index and the committed item. -/
inductive Step (α : Type) where
  | abort
  | okEv (index : Nat) (it : IndexPool.Item α)
deriving Repr, DecidableEq

/-- Outcome of the wait. -/
inductive Outcome (α : Type) where
  | got (it : IndexPool.Item α)
  | aborted
  | waiting
deriving Repr, DecidableEq

/-- The suspended part: resolve with the entry of the first matching `ok`
event, or `AbortedError` when the signal fires first. -/
def waitTail (idx : Nat) : List (Step α) → Outcome α
  | [] => .waiting
  | .abort :: _ => .aborted
  | .okEv i it :: rest => if i = idx then .got it else waitTail idx rest

/-- The function body of index.ts lines 344-355: the immediate-return
check is `entry != null && entry.isOk() && entry.value.owned`. -/
def getOrWaitOrThrow (idx : Nat) (ents : List (Option (IndexPool.Entry α)))
    (steps : List (Step α)) : Outcome α :=
  match IndexPool.sparseGet ents idx with
  | some (.ok it) => if it.mode = .owned then .got it else waitTail idx steps
  | _ => waitTail idx steps

end WaitV1

namespace RawPool

/-!
Embedding of `src/mods/pool/pool.ts` (second variant, lines 238-838): the
promise-tracking `Pool` with `start`/`stop`/`restart` and the
take-random operations.  Entries hold a `Disposer<Box<T>>`; since `set`
never stores two `Ok` entries at one index, an `Ok` entry is identified
by its index, and `#okEntries` (a `Set` in time order) is embedded as
the list of those indices.
-/

/-- One `#allEntries` cell: an `Ok` entry carrying its box's ownership
mode and inner value, or an `Err` entry. -/
inductive REntry (α : Type) where
  | okE (mode : IndexPool.BoxMode) (value : α)
  | errE
deriving Repr, DecidableEq

/-- State of the pool: the sparse `#allAborters` (`some aborted?`),
`#allPromises` (presence of an in-flight or settled construction
promise), `#allEntries`, `#allValues` arrays, the time-ordered
`#okEntries` (as indices) and `#values` sets, and the `started` /
`deleted` event logs. -/
structure St (α : Type) where
  aborters : List (Option Bool)
  promises : List Bool
  entries : List (Option (REntry α))
  valuesArr : List (Option α)
  okIdx : List Nat
  valuesSet : List α
  started : List Nat
  deleted : List Nat
deriving Repr, DecidableEq

/-- Read the sparse `#allPromises` at an index. -/
def promiseAt (s : St α) (i : Nat) : Bool :=
  s.promises.getD i false

/-- `Pool.start(index)` (pool.ts lines 480-503): a no-op when a promise
is already installed at the index; otherwise install a fresh aborter and
the pending construction's promise, and emit `started`. -/
def start (s : St α) (i : Nat) : St α :=
  if promiseAt s i then s
  else
    { s with
      aborters := IndexPool.sparsePut s.aborters i (some false)
      promises := (s.promises ++ List.replicate (i + 1 - s.promises.length) false).set i true
      started := s.started ++ [i] }

/-- `Pool.stop(index)` (pool.ts lines 510-560): abort and drop the
aborter, drop the promises, remove the value from `#values`, then — when
an entry is present — dispose an `Ok` entry's disposer, remove the entry
from the entry sets, clear the cell, and emit `deleted`. -/
def stop [DecidableEq α] (s : St α) (i : Nat) : St α :=
  let s1 : St α :=
    { s with
      aborters := s.aborters.set i none
      promises := s.promises.set i false
      valuesArr := s.valuesArr.set i none
      valuesSet :=
        match s.valuesArr.getD i none with
        | some v => s.valuesSet.erase v
        | none => s.valuesSet }
  match s1.entries.getD i none with
  | none => s1
  | some _ =>
    { s1 with
      okIdx := s1.okIdx.erase i
      entries := s1.entries.set i none
      deleted := s1.deleted ++ [i] }

/-- `Pool.restart(index)` (pool.ts lines 566-570): `stop` then `start`. -/
def restart [DecidableEq α] (s : St α) (i : Nat) : St α :=
  start (stop s i) i

/-- `Pool.getRawRandomSyncOrThrow` (pool.ts lines 656-663):
`Arrays.random([...this.#okEntries])` — pick from the ok-entry set via
the PRNG draw `src`, or throw `EmptyPoolError`. -/
def getRawRandomSyncOrThrow (s : St α) (src : Nat) : Except Unit Nat :=
  match s.okIdx.get? (src % s.okIdx.length) with
  | some i => .ok i
  | none => .error ()

/-- `Pool.takeRawRandomSyncOrThrow` (pool.ts lines 726-740): pick a
random ok entry, `moveOrThrow` its box out (requires ownership; the
pooled box becomes moved), `restart` the slot, and return the taken
index and value.  Errors: `EmptyPoolError` from the pick, or the throw
of `moveOrThrow` on a non-owned box. -/
def takeRawRandomSyncOrThrow [DecidableEq α] (s : St α) (src : Nat) :
    St α × Except Unit (Nat × α) :=
  match getRawRandomSyncOrThrow s src with
  | .error _ => (s, .error ())
  | .ok i =>
    match s.entries.getD i none with
    | some (.okE mode v) =>
      if mode = .owned then
        let s1 := { s with entries := s.entries.set i (some (.okE .moved v)) }
        (restart s1 i, .ok (i, v))
      else (s, .error ())
    | _ => (s, .error ())

/-- A pool whose slots `0` and `1` are both ready, holding owned boxes
with values `v0` and `v1` (the state reached after both constructions of
a two-slot pool committed). -/
def twoReady (v0 v1 : α) : St α :=
  { aborters := [some false, some false]
    promises := [true, true]
    entries := [some (.okE .owned v0), some (.okE .owned v1)]
    valuesArr := [some v0, some v1]
    okIdx := [0, 1]
    valuesSet := [v0, v1]
    started := [0, 1]
    deleted := [] }

end RawPool

namespace EagerPool

/-!
Embedding of `src/mods/pool/pool.ts` (first variant, lines 1-237): the
eager-capacity `Pool` that starts every index in its constructor and
whose `delete(element)` automatically restarts the freed index.
-/

/-- State of the eager pool: the `#allElements` array (dense, with holes
after deletion), the `#openElements` set in insertion order, the
`deleted` event log, and the log of `#start(index)` calls (each one
installs a fresh construction promise at the index). -/
structure St (α : Type) where
  allElements : List (Option α)
  openEls : List α
  deletedEvs : List (Nat × α)
  startedLog : List Nat
deriving Repr, DecidableEq

/-- `this.#allElements.indexOf(element)` (pool.ts line 132): the first
index holding exactly this element, or `none` for `-1`. -/
def elemIndexOf [DecidableEq α] (s : St α) (e : α) : Option Nat :=
  s.allElements.findIdx? (fun o => o = some e)

/-- `Pool.delete(element)` (pool.ts lines 131-146): when the element is
present, clear its cell, remove it from the open set, emit `deleted`,
and unconditionally `#start` the freed index; when absent (`indexOf`
returned `-1`), return with no state change. -/
def delete [DecidableEq α] (s : St α) (e : α) : St α :=
  match elemIndexOf s e with
  | none => s
  | some i =>
    { allElements := s.allElements.set i none
      openEls := s.openEls.erase e
      deletedEvs := s.deletedEvs ++ [(i, e)]
      startedLog := s.startedLog ++ [i] }

end EagerPool

/-! ## Theorems -/

/-- C4: with options `{init: d, base: b, max: 3}`, a looper that fails
with `Retry` on attempts 0 and 1 and succeeds on attempt 2 is invoked
exactly 3 times, with backoff sleeps `d` and `d * b` between the
attempts, and the success value is returned; a looper that fails with
`Retry` on every attempt ends with `TooManyRetries` carrying exactly the
3 prior attempt errors.  This holds for both `tryLoop` and
`loopOrThrow`. -/
theorem retry_accounting {α ε : Type} (d b : Nat) (v : α) (e0 e1 : ε) (e : Nat → ε) :
    LoopMod.tryLoop (LoopMod.retryTwiceLooper v e0 e1) d b 3 =
      ⟨.ok v, 3, [d, d * b]⟩
  ∧ LoopMod.loopOrThrow (LoopMod.retryTwiceLooper v e0 e1) d b 3 =
      ⟨.ok v, 3, [d, d * b]⟩
  ∧ LoopMod.tryLoop (LoopMod.alwaysRetryLooper α e) d b 3 =
      ⟨.tooManyRetries [.retry (e 0), .retry (e 1), .retry (e 2)], 3, [d, d * b, d * b ^ 2]⟩
  ∧ LoopMod.loopOrThrow (LoopMod.alwaysRetryLooper α e) d b 3 =
      ⟨.tooManyRetries [.retry (e 0), .retry (e 1), .retry (e 2)], 3, [d, d * b, d * b ^ 2]⟩ := by
  refine ⟨?_, ?_, ?_, ?_⟩ <;>
    simp [LoopMod.tryLoop, LoopMod.loopOrThrow, LoopMod.tryLoopGo, LoopMod.loopOrThrowGo,
      LoopMod.retryTwiceLooper, LoopMod.alwaysRetryLooper, pow_succ]

/-- C5: a `Cancel(err)` classification ends the loop at once.  A looper
that always fails with `Cancel e` is invoked exactly once, no backoff
sleep occurs, and `e` is propagated as-is (not wrapped in
`TooManyRetries`); and in general, whenever an attempt still inside the
budget fails with `Cancel e`, the loop returns `e` immediately, with no
added sleep and no further attempt. -/
theorem cancel_aborts_immediately (α ε : Type) (e : ε) (d b max : Nat) (hmax : 0 < max) :
    LoopMod.tryLoop (LoopMod.alwaysCancelLooper α e) d b max = ⟨.cancelled e, 1, []⟩
  ∧ ∀ (looper : Nat → Except (LoopMod.Looped ε) α) (i fuel : Nat)
      (errors : List (LoopMod.Looped ε)) (attempts : Nat) (sleeps : List Nat),
      looper i = .error (.cancel e) →
      LoopMod.tryLoopGo looper d b i (fuel + 1) errors attempts sleeps =
        ⟨.cancelled e, attempts + 1, sleeps⟩ := by
  constructor
  · obtain ⟨m, rfl⟩ : ∃ m, max = m + 1 := ⟨max - 1, (Nat.succ_pred_eq_of_pos hmax).symm⟩
    simp [LoopMod.tryLoop, LoopMod.tryLoopGo, LoopMod.alwaysCancelLooper]
  · intro looper i fuel errors attempts sleeps h
    simp [LoopMod.tryLoopGo, h]

theorem cancel_aborts_immediately_witness :
    LoopMod.tryLoop (LoopMod.alwaysCancelLooper Nat (7 : Nat)) 5 2 3 = ⟨.cancelled 7, 1, []⟩
  ∧ LoopMod.tryLoopGo (LoopMod.alwaysCancelLooper Nat (7 : Nat)) 5 2 0 1 [] 4 [9] =
      ⟨.cancelled 7, 5, [9]⟩ :=
  have h := cancel_aborts_immediately Nat Nat 7 5 2 3 (by decide)
  ⟨h.1, h.2 (LoopMod.alwaysCancelLooper Nat 7) 0 0 [] 4 [9] rfl⟩

/-- C9 counterexample: the backoff sleep of pool/loop.ts `tryLoop` is a
plain `setTimeout` and is not interrupted by the external signal.  With
`init = 10`, `max = 3`, a looper that always fails with `Retry`, and the
signal aborting at time 5 — in the middle of the first backoff sleep,
which spans times 1 to 11 — the claim predicts the sleep is interrupted
and the loop ends by time 5; the code completes the full sleep and only
then observes the abort, ending at time 11. -/
theorem sleep_not_cancellable_cex :
    PoolLoop.tryLoopT (LoopMod.alwaysRetryLooper Nat (fun _ => (0 : Nat))) 10 2 3 5 =
      ⟨.aborted, 1, 11⟩
  ∧ ¬ (PoolLoop.tryLoopT (LoopMod.alwaysRetryLooper Nat (fun _ => (0 : Nat))) 10 2 3 5).elapsed ≤ 5 := by
  decide

/-- C9 (amended): if the external signal aborts while the loop is
sleeping before a `Retry` re-attempt, the sleep itself still runs to
completion (it is a plain `setTimeout`, not bound to the signal); the
abort is observed at the next loop-head check, after which no further
attempt of the constructor is made and the loop ends with the `Aborted`
error.  Concretely, for a looper that always fails with `Retry` and a
signal aborting at any time inside the first backoff sleep, the looper
runs exactly once, the run ends `Aborted`, and the elapsed time is the
full end of the sleep `1 + d`, not the abort time. -/
theorem abort_during_sleep (α ε : Type) (e : ε) (d b max abortTime : Nat)
    (hmax : 0 < max) (h0 : 0 < abortTime) (hin : abortTime ≤ 1 + d) :
    PoolLoop.tryLoopT (LoopMod.alwaysRetryLooper α (fun _ => e)) d b max abortTime =
      ⟨.aborted, 1, 1 + d⟩ := by
  obtain ⟨m, rfl⟩ : ∃ m, max = m + 1 := ⟨max - 1, (Nat.succ_pred_eq_of_pos hmax).symm⟩
  have hnot : ¬ abortTime ≤ 0 := by omega
  cases m with
  | zero =>
    simp [PoolLoop.tryLoopT, PoolLoop.tryLoopTGo, LoopMod.alwaysRetryLooper, hnot]
    omega
  | succ m =>
    simp [PoolLoop.tryLoopT, PoolLoop.tryLoopTGo, LoopMod.alwaysRetryLooper, hnot]
    omega

theorem abort_during_sleep_witness :
    PoolLoop.tryLoopT (LoopMod.alwaysRetryLooper Nat (fun _ => (0 : Nat))) 10 2 3 5 =
      ⟨.aborted, 1, 1 + 10⟩ :=
  abort_during_sleep Nat Nat 0 10 2 3 5 (by decide) (by decide) (by decide)

theorem itemlife_step_deleted (op : ItemLife.Op) :
    ItemLife.step ⟨.disposed, true, 1, 1, false⟩ op = ⟨.disposed, true, 1, 1, false⟩ := by
  cases op <;> rfl

theorem itemlife_step_movedOut (op : ItemLife.Op) :
    ItemLife.step ⟨.disposed, true, 1, 0, false⟩ op = ⟨.disposed, true, 1, 0, false⟩ := by
  cases op <;> rfl

theorem itemlife_run_deleted (ops : List ItemLife.Op) :
    ItemLife.run ⟨.disposed, true, 1, 1, false⟩ ops = ⟨.disposed, true, 1, 1, false⟩ := by
  induction ops with
  | nil => rfl
  | cons op tl ih =>
    show ItemLife.run (ItemLife.step _ op) tl = _
    rw [itemlife_step_deleted, ih]

theorem itemlife_run_movedOut (ops : List ItemLife.Op) :
    ItemLife.run ⟨.disposed, true, 1, 0, false⟩ ops = ⟨.disposed, true, 1, 0, false⟩ := by
  induction ops with
  | nil => rfl
  | cons op tl ih =>
    show ItemLife.run (ItemLife.step _ op) tl = _
    rw [itemlife_step_movedOut, ih]

theorem itemlife_run_cons (op : ItemLife.Op) (tl : List ItemLife.Op) :
    ItemLife.run ItemLife.start (op :: tl) =
      (match op with
       | .move => ItemLife.run ⟨.disposed, true, 1, 0, false⟩ tl
       | .unwrap => ItemLife.run ⟨.disposed, true, 1, 0, false⟩ tl
       | .del => ItemLife.run ⟨.disposed, true, 1, 1, false⟩ tl
       | .teardown => ItemLife.run ⟨.disposed, true, 1, 1, false⟩ tl) := by
  cases op <;> rfl

/-- C1: starting from a freshly committed `Ok` item, any nonempty
sequence of `move`/`unwrap`/slot-deletion/pool-teardown operations runs
the wrapper's clean action exactly once and the inner value's disposer
at most once; when the first operation is a successful `moveOrThrow` or
`unwrapOrThrow`, the inner value is transferred out (its disposer does
not run in the pool) while the subsequent slot deletion still fires the
wrapper's clean action; and after any nonempty sequence every further
operation is a no-op — re-disposal never double-frees. -/
theorem exactly_once_disposal (ops : List ItemLife.Op) (hne : ops ≠ []) :
    (ItemLife.run ItemLife.start ops).wrapClean = 1
  ∧ (ItemLife.run ItemLife.start ops).valueClean ≤ 1
  ∧ (∀ tl, ops = ItemLife.Op.move :: tl ∨ ops = ItemLife.Op.unwrap :: tl →
      (ItemLife.run ItemLife.start ops).wrapClean = 1
      ∧ (ItemLife.run ItemLife.start ops).valueClean = 0)
  ∧ (∀ op, ItemLife.step (ItemLife.run ItemLife.start ops) op =
      ItemLife.run ItemLife.start ops) := by
  match ops with
  | [] => exact absurd rfl hne
  | op :: tl =>
    have hrun : ItemLife.run ItemLife.start (op :: tl) = ⟨.disposed, true, 1, 1, false⟩
        ∨ ItemLife.run ItemLife.start (op :: tl) = ⟨.disposed, true, 1, 0, false⟩ := by
      rw [itemlife_run_cons]
      cases op <;>
        simp [itemlife_run_deleted, itemlife_run_movedOut]
    have hmv : ∀ tl1, op :: tl = ItemLife.Op.move :: tl1 ∨ op :: tl = ItemLife.Op.unwrap :: tl1 →
        ItemLife.run ItemLife.start (op :: tl) = ⟨.disposed, true, 1, 0, false⟩ := by
      rintro tl1 (h | h)
      · rw [h, itemlife_run_cons]
        exact itemlife_run_movedOut tl1
      · rw [h, itemlife_run_cons]
        exact itemlife_run_movedOut tl1
    rcases hrun with h | h
    · refine ⟨by rw [h], by rw [h], ?_, ?_⟩
      · intro tl1 hcase
        rw [hmv tl1 hcase]
        exact ⟨rfl, rfl⟩
      · intro op1
        rw [h, itemlife_step_deleted]
    · refine ⟨by rw [h], by rw [h]; decide, ?_, ?_⟩
      · intro tl1 hcase
        rw [hmv tl1 hcase]
        exact ⟨rfl, rfl⟩
      · intro op1
        rw [h, itemlife_step_movedOut]

theorem exactly_once_disposal_witness :
    (ItemLife.run ItemLife.start [.move, .del, .teardown]).wrapClean = 1
  ∧ (ItemLife.run ItemLife.start [.move, .del, .teardown]).valueClean ≤ 1
  ∧ (ItemLife.run ItemLife.start [.move, .del, .teardown]).valueClean = 0
  ∧ ItemLife.step (ItemLife.run ItemLife.start [.move, .del, .teardown]) ItemLife.Op.del =
      ItemLife.run ItemLife.start [.move, .del, .teardown] :=
  have h := exactly_once_disposal [.move, .del, .teardown] (by decide)
  ⟨h.1, h.2.1, (h.2.2.1 [.del, .teardown] (Or.inl rfl)).2, h.2.2.2 .del⟩

theorem replicate_set_last (n : Nat) :
    (List.replicate n true ++ [false]).set n true = List.replicate (n + 1) true := by
  induction n with
  | zero => rfl
  | succ n ih =>
    rw [List.replicate_succ, List.cons_append, List.set_cons_succ, ih]
    rfl

theorem startN_eq (n : Nat) :
    StartTokens.startN (n + 1) = ⟨List.replicate n true ++ [false], some n⟩ := by
  induction n with
  | zero => rfl
  | succ n ih =>
    show StartTokens.startIdx (StartTokens.startN (n + 1)) = _
    rw [ih]
    show StartTokens.St.mk
        (((List.replicate n true ++ [false]).set n true) ++ [false])
        (some ((List.replicate n true ++ [false]).set n true).length) = _
    rw [replicate_set_last]
    simp

/-- C2: after `n + 1` successive `start` calls on the same index, the
tokens of all `n` earlier constructions are observably cancelled, the
installed aborter is the one of the latest construction, and exactly one
construction is live (its token unaborted) — each `start` aborts the
previous construction's token first and then begins exactly one new
construction. -/
theorem at_most_one_pending (n : Nat) :
    StartTokens.startN (n + 1) =
      ⟨List.replicate n true ++ [false], some n⟩
  ∧ StartTokens.liveCount (StartTokens.startN (n + 1)) = 1
  ∧ ∀ k, k < n → (StartTokens.startN (n + 1)).tokens.getD k true = true := by
  refine ⟨startN_eq n, ?_, ?_⟩
  · rw [startN_eq n]
    show (List.replicate n true ++ [false]).count false = 1
    rw [List.count_append, List.count_replicate]
    simp
  · intro k hk
    rw [startN_eq n]
    show ((List.replicate n true ++ [false]).getD k true) = true
    simp [List.getD_eq_getElem?_getD, List.getElem?_append, List.getElem?_replicate, hk]

theorem at_most_one_pending_witness :
    StartTokens.startN 3 = ⟨[true, true, false], some 2⟩
  ∧ StartTokens.liveCount (StartTokens.startN 3) = 1
  ∧ (StartTokens.startN 3).tokens.getD 0 true = true :=
  have h := at_most_one_pending 2
  ⟨h.1, h.2.1, h.2.2 0 (by decide)⟩

/-- C3: when the slot's cancellation token is already aborted at the
moment the constructor resolves successfully, `StartPool.#create`
disposes the produced resource immediately (both its value disposer and
its wrapper clean action run via the holding `Stack`) and commits no
slot transition: the pool state is exactly unchanged — in particular no
`ready` event is emitted, the slot is not set, and an empty slot remains
empty. -/
theorem cancellation_race (α : Type) (s : IndexPool.PoolSt α) (i : Nat) (v : α) :
    (IndexPool.createResume s i true (.ok v)).st = s
  ∧ (IndexPool.createResume s i true (.ok v)).valueCleaned = true
  ∧ (IndexPool.createResume s i true (.ok v)).entryCleaned = true
  ∧ (IndexPool.createResume s i true (.ok v)).st.events = s.events
  ∧ (IndexPool.sparseGet s.entries i = none →
      IndexPool.sparseGet (IndexPool.createResume s i true (.ok v)).st.entries i = none) := by
  exact ⟨rfl, rfl, rfl, rfl, fun h => h⟩

theorem cancellation_race_witness :
    (IndexPool.createResume (⟨[], [], []⟩ : IndexPool.PoolSt Nat) 0 true (.ok 5)).st =
      (⟨[], [], []⟩ : IndexPool.PoolSt Nat)
  ∧ IndexPool.sparseGet
      (IndexPool.createResume (⟨[], [], []⟩ : IndexPool.PoolSt Nat) 0 true (.ok 5)).st.entries 0 =
      none :=
  ⟨(cancellation_race Nat ⟨[], [], []⟩ 0 5).1,
   (cancellation_race Nat ⟨[], [], []⟩ 0 5).2.2.2.2 (by decide)⟩

theorem okOwnedEntries_mem {α : Type} {s : IndexPool.PoolSt α} {it : IndexPool.Item α}
    (h : it ∈ IndexPool.okOwnedEntries s) :
    some (IndexPool.Entry.ok it) ∈ s.entries ∧ it.mode = .owned := by
  rw [IndexPool.okOwnedEntries, List.mem_filterMap] at h
  obtain ⟨o, ho, hf⟩ := h
  match o with
  | none => simp at hf
  | some .err => simp at hf
  | some (.ok it1) =>
    by_cases hm : it1.mode = IndexPool.BoxMode.owned
    · simp [hm] at hf
      subst hf
      exact ⟨ho, hm⟩
    · simp [hm] at hf

theorem getRandom_eq_getCryptoRandom {α : Type} (s : IndexPool.PoolSt α) (src : Nat) :
    IndexPool.getCryptoRandomOrThrow s src = IndexPool.getRandomOrThrow s src :=
  rfl

theorem getRandom_ok_mem {α : Type} {s : IndexPool.PoolSt α} {src : Nat}
    {it : IndexPool.Item α} (h : IndexPool.getRandomOrThrow s src = .ok it) :
    some (IndexPool.Entry.ok it) ∈ s.entries ∧ it.mode = .owned := by
  rw [IndexPool.getRandomOrThrow] at h
  apply okOwnedEntries_mem
  match hg : (IndexPool.okOwnedEntries s).get? (src % (IndexPool.okOwnedEntries s).length) with
  | some it1 =>
    rw [hg] at h
    obtain rfl : it1 = it := by injection h
    exact List.get?_mem hg
  | none =>
    rw [hg] at h
    exact absurd h (by simp)

theorem getRandom_err_iff {α : Type} (s : IndexPool.PoolSt α) (src : Nat) :
    IndexPool.getRandomOrThrow s src = .error () ↔ IndexPool.okOwnedEntries s = [] := by
  rw [IndexPool.getRandomOrThrow]
  constructor
  · intro h
    match hg : (IndexPool.okOwnedEntries s).get? (src % (IndexPool.okOwnedEntries s).length) with
    | some it1 => rw [hg] at h; exact absurd h (by simp)
    | none =>
      rw [List.get?_eq_none] at hg
      rcases Nat.eq_zero_or_pos (IndexPool.okOwnedEntries s).length with hz | hp
      · exact List.eq_nil_of_length_eq_zero hz
      · have hlt := Nat.mod_lt src hp
        omega
  · intro h
    rw [h]
    rfl

theorem poolUpdate_ok_eq {α : Type} {s : IndexPool.PoolSt α} {i : Nat}
    {it : IndexPool.Item α} (h : IndexPool.sparseGet s.entries i = some (.ok it)) :
    IndexPool.poolUpdate s i = { s with events := s.events ++ [.ready i] } := by
  unfold IndexPool.poolUpdate
  rw [h]

/-- C6: `getRandomOrThrow` and `getCryptoRandomOrThrow` select only
among entries that are `Ok` and whose item is currently owned; they
raise `EmptyPool` exactly when no such entry exists; a borrowed item is
never returned by either operation; and once `returnOrThrow` restores
ownership it emits a `ready` notification and the item is an eligible
candidate again on the very next call. -/
theorem availability_exclusion (α : Type) :
    (∀ (s : IndexPool.PoolSt α) (src : Nat) (it : IndexPool.Item α),
        IndexPool.getRandomOrThrow s src = .ok it ∨
          IndexPool.getCryptoRandomOrThrow s src = .ok it →
        some (IndexPool.Entry.ok it) ∈ s.entries ∧ it.mode = .owned)
  ∧ (∀ (s : IndexPool.PoolSt α) (src : Nat),
        (IndexPool.getRandomOrThrow s src = .error () ↔ IndexPool.okOwnedEntries s = [])
      ∧ (IndexPool.getCryptoRandomOrThrow s src = .error () ↔ IndexPool.okOwnedEntries s = []))
  ∧ (∀ (s : IndexPool.PoolSt α) (src : Nat) (it : IndexPool.Item α),
        it.mode = .borrowed →
        ¬ (IndexPool.getRandomOrThrow s src = .ok it ∨
            IndexPool.getCryptoRandomOrThrow s src = .ok it))
  ∧ (∀ (s s1 : IndexPool.PoolSt α) (i : Nat),
        IndexPool.returnOrThrow s i = .ok s1 →
        ∃ it : IndexPool.Item α,
          IndexPool.sparseGet s1.entries i = some (.ok it)
          ∧ it.mode = .owned
          ∧ it ∈ IndexPool.okOwnedEntries s1
          ∧ s1.events = s.events ++ [.ready i]) := by
  have hsel : ∀ (s : IndexPool.PoolSt α) (src : Nat) (it : IndexPool.Item α),
      IndexPool.getRandomOrThrow s src = .ok it ∨
        IndexPool.getCryptoRandomOrThrow s src = .ok it →
      some (IndexPool.Entry.ok it) ∈ s.entries ∧ it.mode = .owned := by
    intro s src it h
    rcases h with h | h
    · exact getRandom_ok_mem h
    · rw [getRandom_eq_getCryptoRandom] at h
      exact getRandom_ok_mem h
  refine ⟨hsel, ?_, ?_, ?_⟩
  · intro s src
    rw [getRandom_eq_getCryptoRandom]
    exact ⟨getRandom_err_iff s src, getRandom_err_iff s src⟩
  · intro s src it hb h
    have := (hsel s src it h).2
    rw [hb] at this
    exact absurd this (by simp)
  · intro s s1 i h
    rw [IndexPool.returnOrThrow] at h
    match hg : IndexPool.sparseGet s.entries i with
    | none => rw [hg] at h; exact absurd h (by simp)
    | some .err => rw [hg] at h; exact absurd h (by simp)
    | some (.ok it0) =>
      rw [hg] at h
      by_cases hm : it0.mode = IndexPool.BoxMode.borrowed
      · simp only [hm, if_true, Except.ok.injEq] at h
        obtain rfl :
            IndexPool.poolUpdate
              { s with entries :=
                  s.entries.set i (some (.ok { it0 with mode := .owned })) } i = s1 := h
        have hlen : i < s.entries.length := by
          by_contra hge
          rw [IndexPool.sparseGet, List.getD_eq_getElem?_getD, List.getElem?_eq_none (by omega)]
            at hg
          exact absurd hg (by simp)
        have hget : IndexPool.sparseGet
            (s.entries.set i (some (.ok { it0 with mode := .owned }))) i =
            some (.ok { it0 with mode := .owned }) := by
          rw [IndexPool.sparseGet, List.getD_eq_getElem?_getD, List.getElem?_set_self]
          · rfl
          · exact hlen
        refine ⟨{ it0 with mode := .owned }, ?_, rfl, ?_, ?_⟩
        · rw [poolUpdate_ok_eq hget]
          exact hget
        · have hmem : some (IndexPool.Entry.ok { it0 with mode := IndexPool.BoxMode.owned }) ∈
              s.entries.set i (some (.ok { it0 with mode := .owned })) := by
            apply List.get?_mem (n := i)
            rw [List.get?_eq_getElem?, List.getElem?_set_self hlen]
          rw [poolUpdate_ok_eq hget]
          rw [IndexPool.okOwnedEntries, List.mem_filterMap]
          exact ⟨some (.ok { it0 with mode := .owned }), hmem, rfl⟩
        · rw [poolUpdate_ok_eq hget]
      · simp [hm] at h

/-- C7: on a two-slot ready pool, a successful take-random picks a random
available entry, moves its value out, and immediately restarts the
chosen slot; two sequential takes return two distinct values (exactly
the two pooled values) from two distinct slots, and afterwards both
slots are restarted: the entries are cleared, the construction promises
are freshly installed with fresh unaborted tokens, and neither taken
value is reachable through the pool any more (`#okEntries` and
`#values` are empty). -/
theorem take_random_twice (α : Type) [DecidableEq α] (v0 v1 : α) (hne : v0 ≠ v1)
    (src1 src2 : Nat) :
    ∃ i1 w1 i2 w2,
      (RawPool.takeRawRandomSyncOrThrow (RawPool.twoReady v0 v1) src1).2 = .ok (i1, w1)
    ∧ (RawPool.takeRawRandomSyncOrThrow
        (RawPool.takeRawRandomSyncOrThrow (RawPool.twoReady v0 v1) src1).1 src2).2 =
        .ok (i2, w2)
    ∧ w1 ≠ w2 ∧ i1 ≠ i2
    ∧ ((w1 = v0 ∧ w2 = v1) ∨ (w1 = v1 ∧ w2 = v0))
    ∧ ((RawPool.takeRawRandomSyncOrThrow
          (RawPool.takeRawRandomSyncOrThrow (RawPool.twoReady v0 v1) src1).1 src2).1.entries =
          [none, none]
      ∧ (RawPool.takeRawRandomSyncOrThrow
          (RawPool.takeRawRandomSyncOrThrow (RawPool.twoReady v0 v1) src1).1 src2).1.okIdx = []
      ∧ (RawPool.takeRawRandomSyncOrThrow
          (RawPool.takeRawRandomSyncOrThrow (RawPool.twoReady v0 v1) src1).1 src2).1.valuesSet = []
      ∧ (RawPool.takeRawRandomSyncOrThrow
          (RawPool.takeRawRandomSyncOrThrow (RawPool.twoReady v0 v1) src1).1 src2).1.promises =
          [true, true]
      ∧ (RawPool.takeRawRandomSyncOrThrow
          (RawPool.takeRawRandomSyncOrThrow (RawPool.twoReady v0 v1) src1).1 src2).1.aborters =
          [some false, some false]) := by
  rcases Nat.mod_two_eq_zero_or_one src1 with h1 | h1
  · have ht1 : RawPool.takeRawRandomSyncOrThrow (RawPool.twoReady v0 v1) src1 =
        (⟨[some false, some false], [true, true], [none, some (.okE .owned v1)],
          [none, some v1], [1], [v1], [0, 1, 0], [0]⟩, .ok (0, v0)) := by
      simp [RawPool.takeRawRandomSyncOrThrow, RawPool.getRawRandomSyncOrThrow,
        RawPool.twoReady, RawPool.restart, RawPool.stop, RawPool.start, RawPool.promiseAt,
        IndexPool.sparsePut, List.getD, h1]
    have ht2 : RawPool.takeRawRandomSyncOrThrow
        (⟨[some false, some false], [true, true], [none, some (.okE .owned v1)],
          [none, some v1], [1], [v1], [0, 1, 0], [0]⟩ : RawPool.St α) src2 =
        (⟨[some false, some false], [true, true], [none, none],
          [none, none], [], [], [0, 1, 0, 1], [0, 1]⟩, .ok (1, v1)) := by
      simp [RawPool.takeRawRandomSyncOrThrow, RawPool.getRawRandomSyncOrThrow,
        RawPool.restart, RawPool.stop, RawPool.start, RawPool.promiseAt,
        IndexPool.sparsePut, List.getD, Nat.mod_one]
    refine ⟨0, v0, 1, v1, ?_, ?_, hne, by decide, Or.inl ⟨rfl, rfl⟩, ?_⟩
    · rw [ht1]
    · rw [ht1, ht2]
    · rw [ht1, ht2]
      exact ⟨rfl, rfl, rfl, rfl, rfl⟩
  · have ht1 : RawPool.takeRawRandomSyncOrThrow (RawPool.twoReady v0 v1) src1 =
        (⟨[some false, some false], [true, true], [some (.okE .owned v0), none],
          [some v0, none], [0], [v0], [0, 1, 1], [1]⟩, .ok (1, v1)) := by
      simp [RawPool.takeRawRandomSyncOrThrow, RawPool.getRawRandomSyncOrThrow,
        RawPool.twoReady, RawPool.restart, RawPool.stop, RawPool.start, RawPool.promiseAt,
        IndexPool.sparsePut, List.getD, List.erase_cons, hne, h1]
    have ht2 : RawPool.takeRawRandomSyncOrThrow
        (⟨[some false, some false], [true, true], [some (.okE .owned v0), none],
          [some v0, none], [0], [v0], [0, 1, 1], [1]⟩ : RawPool.St α) src2 =
        (⟨[some false, some false], [true, true], [none, none],
          [none, none], [], [], [0, 1, 1, 0], [1, 0]⟩, .ok (0, v0)) := by
      simp [RawPool.takeRawRandomSyncOrThrow, RawPool.getRawRandomSyncOrThrow,
        RawPool.restart, RawPool.stop, RawPool.start, RawPool.promiseAt,
        IndexPool.sparsePut, List.getD, Nat.mod_one]
    refine ⟨1, v1, 0, v0, ?_, ?_, fun h => hne h.symm, by decide, Or.inr ⟨rfl, rfl⟩, ?_⟩
    · rw [ht1]
    · rw [ht1, ht2]
    · rw [ht1, ht2]
      exact ⟨rfl, rfl, rfl, rfl, rfl⟩

theorem take_random_twice_witness :
    ∃ i1 w1 i2 w2,
      (RawPool.takeRawRandomSyncOrThrow (RawPool.twoReady (0 : Nat) 1) 0).2 = .ok (i1, w1)
    ∧ (RawPool.takeRawRandomSyncOrThrow
        (RawPool.takeRawRandomSyncOrThrow (RawPool.twoReady (0 : Nat) 1) 0).1 0).2 =
        .ok (i2, w2)
    ∧ w1 ≠ w2 ∧ i1 ≠ i2
    ∧ ((w1 = 0 ∧ w2 = 1) ∨ (w1 = 1 ∧ w2 = 0))
    ∧ ((RawPool.takeRawRandomSyncOrThrow
          (RawPool.takeRawRandomSyncOrThrow (RawPool.twoReady (0 : Nat) 1) 0).1 0).1.entries =
          [none, none]
      ∧ (RawPool.takeRawRandomSyncOrThrow
          (RawPool.takeRawRandomSyncOrThrow (RawPool.twoReady (0 : Nat) 1) 0).1 0).1.okIdx = []
      ∧ (RawPool.takeRawRandomSyncOrThrow
          (RawPool.takeRawRandomSyncOrThrow (RawPool.twoReady (0 : Nat) 1) 0).1 0).1.valuesSet = []
      ∧ (RawPool.takeRawRandomSyncOrThrow
          (RawPool.takeRawRandomSyncOrThrow (RawPool.twoReady (0 : Nat) 1) 0).1 0).1.promises =
          [true, true]
      ∧ (RawPool.takeRawRandomSyncOrThrow
          (RawPool.takeRawRandomSyncOrThrow (RawPool.twoReady (0 : Nat) 1) 0).1 0).1.aborters =
          [some false, some false]) :=
  take_random_twice Nat 0 1 (by decide) 0 0

theorem availability_exclusion_witness :
    some (IndexPool.Entry.ok (⟨0, 42, .owned⟩ : IndexPool.Item Nat)) ∈
        ([some (.ok ⟨0, 42, .owned⟩)] : List (Option (IndexPool.Entry Nat)))
      ∧ (⟨0, 42, .owned⟩ : IndexPool.Item Nat).mode = .owned :=
  (availability_exclusion Nat).1 ⟨[some (.ok ⟨0, 42, .owned⟩)], [], []⟩ 0 ⟨0, 42, .owned⟩
    (Or.inl rfl)

/-- C8 counterexample: the claim says `getOrWait(index, signal)` returns
immediately if and only if the slot is `Ready` *and* its item is
available (owned, not borrowed).  For the variant at index.ts lines
696-709 this is false: with slot 0 holding an `Ok` entry whose item is
borrowed (not owned) and no notification ever arriving, the claim
predicts the call keeps waiting, but the code returns the value
immediately — its immediate-return check is only `entry != null &&
entry.isOk()`. -/
theorem get_or_wait_borrowed_cex :
    WaitV2.getOrWaitOrThrow 0
        ([some (.ok ⟨0, 42, .borrowed⟩)] : List (Option (IndexPool.Entry Nat))) [] =
      .got 42
  ∧ IndexPool.sparseGet
        ([some (.ok ⟨0, 42, .borrowed⟩)] : List (Option (IndexPool.Entry Nat))) 0 =
      some (.ok ⟨0, 42, .borrowed⟩)
  ∧ (⟨0, 42, .borrowed⟩ : IndexPool.Item Nat).mode ≠ .owned := by
  refine ⟨rfl, rfl, by decide⟩

/-- C8 (amended): the two `getOrWaitOrThrow` variants differ in their
immediate-return condition.  The variant at index.ts lines 696-709
returns the slot's value immediately whenever the slot holds an `Ok`
entry — even a borrowed one; otherwise it waits on the `ready`
notification for that index, re-checks the slot state on every matching
notification, and rejects with `Aborted` when the caller's signal
fires.  The variant at index.ts lines 344-355 returns the entry
immediately if and only if the slot holds an `Ok` entry whose item is
owned; otherwise it resolves with the entry carried by the first
matching `ok` event, or rejects with `Aborted` when the signal fires. -/
theorem get_or_wait_amended (α : Type) :
    (∀ (ents : List (Option (IndexPool.Entry α))) (steps : List (WaitV2.Step α))
        (idx : Nat) (it : IndexPool.Item α),
        IndexPool.sparseGet ents idx = some (.ok it) →
        WaitV2.getOrWaitOrThrow idx ents steps = .got it.value)
  ∧ (∀ (ents : List (Option (IndexPool.Entry α))) (idx : Nat) (steps : List (WaitV2.Step α)),
        (∀ it, IndexPool.sparseGet ents idx ≠ some (.ok it)) →
        WaitV2.getOrWaitOrThrow idx ents (WaitV2.Step.abort :: steps) = .aborted)
  ∧ (∀ (ents ents1 : List (Option (IndexPool.Entry α))) (idx : Nat)
        (rest : List (WaitV2.Step α)),
        (∀ it, IndexPool.sparseGet ents idx ≠ some (.ok it)) →
        WaitV2.getOrWaitOrThrow idx ents (WaitV2.Step.notify idx ents1 :: rest) =
          WaitV2.getOrWaitOrThrow idx ents1 rest)
  ∧ (∀ (ents : List (Option (IndexPool.Entry α))) (idx : Nat)
        (steps : List (WaitV1.Step α)) (it : IndexPool.Item α),
        IndexPool.sparseGet ents idx = some (.ok it) → it.mode = .owned →
        WaitV1.getOrWaitOrThrow idx ents steps = .got it)
  ∧ (∀ (ents : List (Option (IndexPool.Entry α))) (idx : Nat)
        (steps : List (WaitV1.Step α)) (it : IndexPool.Item α),
        IndexPool.sparseGet ents idx = some (.ok it) → it.mode ≠ .owned →
        WaitV1.getOrWaitOrThrow idx ents steps = WaitV1.waitTail idx steps)
  ∧ (∀ (idx : Nat) (steps : List (WaitV1.Step α)),
        WaitV1.waitTail idx (WaitV1.Step.abort :: steps) = (.aborted : WaitV1.Outcome α))
  ∧ (∀ (idx : Nat) (steps : List (WaitV1.Step α)) (it : IndexPool.Item α),
        WaitV1.waitTail idx (WaitV1.Step.okEv idx it :: steps) = .got it) := by
  have hnotok : ∀ (ents : List (Option (IndexPool.Entry α))) (idx : Nat),
      (∀ it, IndexPool.sparseGet ents idx ≠ some (.ok it)) →
      IndexPool.sparseGet ents idx = none ∨ IndexPool.sparseGet ents idx = some .err := by
    intro ents idx h
    match hg : IndexPool.sparseGet ents idx with
    | none => exact Or.inl rfl
    | some .err => exact Or.inr rfl
    | some (.ok it) => exact absurd hg (h it)
  have hchk : ∀ (ents : List (Option (IndexPool.Entry α))) (idx : Nat),
      (∀ it, IndexPool.sparseGet ents idx ≠ some (.ok it)) →
      WaitV2.check idx ents = none := by
    intro ents idx h
    rcases hnotok ents idx h with hg | hg <;> rw [WaitV2.check, hg]
  refine ⟨?_, ?_, ?_, ?_, ?_, ?_, ?_⟩
  · intro ents steps idx it h
    have hc : WaitV2.check idx ents = some it.value := by rw [WaitV2.check, h]
    rcases steps with _ | ⟨_ | ⟨i, ents1⟩, rest⟩ <;> simp [WaitV2.getOrWaitOrThrow, hc]
  · intro ents idx steps h
    simp [WaitV2.getOrWaitOrThrow, hchk ents idx h]
  · intro ents ents1 idx rest h
    simp [WaitV2.getOrWaitOrThrow, hchk ents idx h]
  · intro ents idx steps it h hm
    rw [WaitV1.getOrWaitOrThrow, h]
    exact if_pos hm
  · intro ents idx steps it h hm
    rw [WaitV1.getOrWaitOrThrow, h]
    exact if_neg hm
  · intro idx steps
    rfl
  · intro idx steps it
    show (if idx = idx then WaitV1.Outcome.got it else WaitV1.waitTail idx steps) = .got it
    exact if_pos rfl

theorem get_or_wait_amended_witness :
    WaitV2.getOrWaitOrThrow 0
        ([some (.ok ⟨0, 42, .borrowed⟩)] : List (Option (IndexPool.Entry Nat)))
        [WaitV2.Step.abort] =
      .got 42 :=
  (get_or_wait_amended Nat).1 [some (.ok ⟨0, 42, .borrowed⟩)] [WaitV2.Step.abort] 0
    ⟨0, 42, .borrowed⟩ rfl

/-- C10: in the eager-capacity pool variant, `delete(element)` applied to
an element currently in the pool clears its cell in the element array,
removes it from the open set, emits a `deleted` event, and always starts
a new construction at the freed index; applied to an element not present
it returns without changing any pool state and starts nothing. -/
theorem delete_restarts (α : Type) [DecidableEq α] (s : EagerPool.St α) (e : α) :
    (∀ i, EagerPool.elemIndexOf s e = some i →
      EagerPool.delete s e =
        ⟨s.allElements.set i none, s.openEls.erase e,
          s.deletedEvs ++ [(i, e)], s.startedLog ++ [i]⟩)
  ∧ (EagerPool.elemIndexOf s e = none → EagerPool.delete s e = s) := by
  constructor
  · intro i h
    rw [EagerPool.delete, h]
  · intro h
    rw [EagerPool.delete, h]

theorem delete_restarts_witness :
    EagerPool.delete (⟨[some 5, some 6], [5, 6], [], []⟩ : EagerPool.St Nat) 5 =
      ⟨([some 5, some 6] : List (Option Nat)).set 0 none, ([5, 6] : List Nat).erase 5,
        [] ++ [(0, 5)], [] ++ [0]⟩
  ∧ EagerPool.delete (⟨[some 5, some 6], [5, 6], [], []⟩ : EagerPool.St Nat) 7 =
      ⟨[some 5, some 6], [5, 6], [], []⟩ :=
  ⟨(delete_restarts Nat ⟨[some 5, some 6], [5, 6], [], []⟩ 5).1 0 (by decide),
   (delete_restarts Nat ⟨[some 5, some 6], [5, 6], [], []⟩ 7).2 (by decide)⟩
